import Mathlib

/-!
Verification of the resource-loader and storage-pipeline core of the
envoy-integrations-sdk-nodejs repository.

The embedding follows `src/src/EnvoyAPI.ts` (the `EnvoyAPI` class: its
`dataLoader`, the `TYPE_ALIASES` table, the response interceptor installed in
the constructor, and `storagePipeline`) and `src/unnamed/part_000`
(`EnvoyPluginStoragePipeline`).  The `DataLoader` class itself is the
`dataloader` npm library imported on line 3 of `EnvoyAPI.ts`; its behaviour
(per-tick batching, caching by `cacheKeyFn`, `prime` inserting only when the
key is absent, and clearing of keys whose batch dispatch failed) is modelled
here after that library's documented and implemented semantics, since the
repository's code is written directly against them.

Stateful JavaScript (the mutable cache, the mutable command array of the
pipeline) is embedded by explicit state passing; promise rejections and thrown
interceptor errors are embedded with `Except`.
-/

namespace EnvoySDK

deriving instance DecidableEq for Except

/-- A JSON-API resource as the interceptor sees it: a `type`, an `id`, and an
otherwise opaque payload (attributes / relationships), stood for by a `Nat`. -/
structure JSONAPIData where
  type : String
  id : String
  payload : Nat
deriving DecidableEq

/-- `EnvoyWebDataLoaderKey` (src/src/EnvoyAPI.ts lines 33-35): a resource
identity plus an optional `include` directive (field renamed `incl` here). -/
structure EnvoyWebDataLoaderKey where
  type : String
  id : String
  incl : Option String
deriving DecidableEq

/-- The `TYPE_ALIASES` map (src/src/EnvoyAPI.ts lines 42-44): it has the single
entry `'employee-screening-flows' -> 'flows'`. -/
def TYPE_ALIASES (t : String) : Option String :=
  if t = "employee-screening-flows" then some "flows" else none

/-- `cacheKeyFn` (src/src/EnvoyAPI.ts line 82): the cache key is the string
`type ++ "_" ++ id`; the `include` directive is not part of it. -/
def cacheKeyFn (k : EnvoyWebDataLoaderKey) : String :=
  k.type ++ "_" ++ k.id

/-- A value held in the data-loader cache: `data.data` of a response is either
a single resource or an array of resources. -/
inductive JSResult where
  | model (m : JSONAPIData)
  | models (ms : List JSONAPIData)
deriving DecidableEq

/-- The data-loader cache: an association list from cache-key strings to
cached values, first match winning (newer entries are consed on the front). -/
abbrev Cache := List (String × JSResult)

/-- Look a cache key up (the `cacheMap.get` of the dataloader library). -/
def cacheLookup (c : Cache) (k : String) : Option JSResult :=
  (c.find? (fun e => e.1 = k)).map (fun e => e.2)

/-- `DataLoader.prime` on an already-computed cache key: the dataloader
library only adds the key if it does not already exist; an existing entry
(resolved or pending) is left untouched. -/
def primeEntry (c : Cache) (k : String) (v : JSResult) : Cache :=
  if (cacheLookup c k).isSome then c else (k, v) :: c

/-- `dataLoader.prime(key, value)`: primes under `cacheKeyFn key`. -/
def prime (c : Cache) (k : EnvoyWebDataLoaderKey) (v : JSResult) : Cache :=
  primeEntry c (cacheKeyFn k) v

/-- Overwrite an entry (used for the value a dispatched fetch resolves to:
the cached promise for the requested key settles to `data.data`). -/
def setEntry (c : Cache) (k : String) (v : JSResult) : Cache :=
  (k, v) :: c

/-- `DataLoader.clear(key)`: remove any entry for the cache key (the
dataloader library clears every key of a batch whose dispatch failed). -/
def eraseKey : Cache → String → Cache
  | [], _ => []
  | e :: c, k => if e.1 = k then eraseKey c k else e :: eraseKey c k

/-- `response.data.data` as the interceptor destructures it: a single
resource, or an array of resources.  (`none` at the use site stands for
JavaScript `undefined`.) -/
inductive BodyData where
  | one (m : JSONAPIData)
  | many (ms : List JSONAPIData)
deriving DecidableEq

/-- A successful response body as destructured by the interceptor
(src/src/EnvoyAPI.ts lines 93-98): `dataField` is `response.data.data`
(`none` = the field is absent/undefined) and `included` is
`response.data.included`. -/
structure InterceptBody where
  dataField : Option BodyData
  included : Option (List JSONAPIData)
deriving DecidableEq

/-- The per-resource priming step of the interceptor (src/src/EnvoyAPI.ts
lines 102-108): prime under the natural `(type, id)` identity, and, when
`TYPE_ALIASES` has an entry for the resource's type, also under the aliased
type with the same id. -/
def primeModel (c : Cache) (m : JSONAPIData) : Cache :=
  let c1 := primeEntry c (m.type ++ "_" ++ m.id) (.model m)
  match TYPE_ALIASES m.type with
  | some a => primeEntry c1 (a ++ "_" ++ m.id) (.model m)
  | none => c1

/-- The response interceptor (src/src/EnvoyAPI.ts lines 92-110) on a body.
`(included || []).concat(modelOrModels)` puts the included resources first and
`modelOrModels` after them, and `forEach` reads `model.type` on each element:
when `data.data` is absent, `concat(undefined)` contributes the single element
`undefined`, whose `.type` access throws a `TypeError` — after every included
resource has already been primed.  `.error c` models that throw, carrying the
cache as mutated by the primes that already ran; `.ok c` models the interceptor
returning the response unchanged with the cache fully primed. -/
def absorb (c : Cache) (b : InterceptBody) : Except Cache Cache :=
  let base := (b.included.getD []).foldl primeModel c
  match b.dataField with
  | none => .error base
  | some (.one m) => .ok (primeModel base m)
  | some (.many ms) => .ok (ms.foldl primeModel base)

/-- The value the batch function returns for a key (`data.data`,
src/src/EnvoyAPI.ts line 78). -/
def dataValue : BodyData → JSResult
  | .one m => .model m
  | .many ms => .models ms

/-! ### The data loader's batching tick

`DataLoader.load` checks the cache first; a miss registers the key on the
current batch queue and caches the pending promise, so later loads of the same
cache key within the tick attach to it instead of enqueueing again.  At the
end of the tick the batch function runs: here (src/src/EnvoyAPI.ts lines
75-80) it is `Promise.all` over one `axios.get` per queued key, each response
passing through the interceptor.  If any of those rejects (a transport error,
or the interceptor throwing), `Promise.all` rejects, and the dataloader's
failed-dispatch path rejects every waiter of the batch with that error and
clears every batch key from the cache. -/

/-- `true` exactly on `Except.error`. -/
def isErr {E A : Type} : Except E A → Bool
  | .error _ => true
  | .ok _ => false

/-- Collect the batch queue of one tick: for each requested key in order,
skip it if its cache key is already cached or already queued, otherwise
append it.  The key object enqueued for a cache key is the one from the first
`load` call for it (so its `include` directive is the one fetched). -/
def collectQueue (c : Cache) :
    List EnvoyWebDataLoaderKey → List EnvoyWebDataLoaderKey →
    List EnvoyWebDataLoaderKey
  | [], acc => acc
  | k :: ks, acc =>
    if (cacheLookup c (cacheKeyFn k)).isSome
        || acc.any (fun q => cacheKeyFn q == cacheKeyFn k)
    then collectQueue c ks acc
    else collectQueue c ks (acc ++ [k])

/-- One key of the batch function: `axios.get` (`fetch`), then the response
interceptor (`absorb`) on success, then the `data.data` extraction.  The
accumulator threads the cache and the per-cache-key outcomes in dispatch
order.  An interceptor throw leaves the primes that ran before it in the
cache but the requested key itself cleared, and turns into a rejection
(`typeErr`, the thrown `TypeError`). -/
def dispatchStep {E : Type} (typeErr : E)
    (fetch : EnvoyWebDataLoaderKey → Except E InterceptBody)
    (acc : Cache × List (String × Except E JSResult))
    (k : EnvoyWebDataLoaderKey) :
    Cache × List (String × Except E JSResult) :=
  match fetch k with
  | .error e => (acc.1, acc.2 ++ [(cacheKeyFn k, .error e)])
  | .ok body =>
    match absorb acc.1 body with
    | .error c1 => (eraseKey c1 (cacheKeyFn k), acc.2 ++ [(cacheKeyFn k, .error typeErr)])
    | .ok c1 =>
      match body.dataField with
      | some d => (setEntry c1 (cacheKeyFn k) (dataValue d),
                   acc.2 ++ [(cacheKeyFn k, .ok (dataValue d))])
      | none => (c1, acc.2 ++ [(cacheKeyFn k, .error typeErr)])

/-- First error among the per-key outcomes, if any (the rejection
`Promise.all` settles with). -/
def firstError {E : Type} : List (String × Except E JSResult) → Option E
  | [] => none
  | (_, .error e) :: _ => some e
  | _ :: rest => firstError rest

/-- Dispatch a batch queue: run every key's fetch+absorb, then apply the
`Promise.all` semantics — if any key's promise rejected, the whole batch
function rejects, so every waiter gets that first error and every batch key
is cleared from the cache (the dataloader's failed dispatch). -/
def dispatchAll {E : Type} (c : Cache) (queue : List EnvoyWebDataLoaderKey)
    (typeErr : E) (fetch : EnvoyWebDataLoaderKey → Except E InterceptBody) :
    Cache × List (String × Except E JSResult) :=
  let p := queue.foldl (dispatchStep typeErr fetch) (c, [])
  match firstError p.2 with
  | some e => (queue.foldl (fun cc k => eraseKey cc (cacheKeyFn k)) p.1,
               p.2.map (fun q => (q.1, Except.error e)))
  | none => p

/-- The observable outcome of one batching tick: the settled result of every
`load` call in request order, the cache afterwards, and the upstream fetches
that were dispatched (in dispatch order; one `axios.get` per element). -/
structure TickResult (E : Type) where
  results : List (Except E JSResult)
  cache : Cache
  fetched : List EnvoyWebDataLoaderKey

/-- Run one batching tick: a list of `load(k)` calls issued before any of
them resolves.  Keys already cached resolve from the cache with no fetch;
the rest are deduplicated by cache key, dispatched once each, and every
requester of a cache key receives that key's (shared) outcome. -/
def runTick {E : Type} (c : Cache) (ks : List EnvoyWebDataLoaderKey)
    (typeErr : E) (fetch : EnvoyWebDataLoaderKey → Except E InterceptBody) :
    TickResult E :=
  let queue := collectQueue c ks []
  let d := dispatchAll c queue typeErr fetch
  ⟨ks.map (fun k =>
      match cacheLookup c (cacheKeyFn k) with
      | some v => .ok v
      | none =>
        match d.2.find? (fun p => p.1 == cacheKeyFn k) with
        | some p => p.2
        | none => .error typeErr),
   d.1, queue⟩

/-! ### The storage pipeline

`EnvoyPluginStoragePipeline` (src/unnamed/part_000 lines 72-142) accumulates
storage commands and submits them through `storagePipeline`
(src/src/EnvoyAPI.ts lines 257-271).  The mutable `commands` array is
embedded by state passing: each builder call returns the updated pipeline
(the fluent `return this`). -/

/-- Modelled from the spec: `EnvoyStorageSetUniqueOptions` of the
`EnvoyStorageCommand` module, which is imported by src/src/EnvoyAPI.ts line 30
and src/unnamed/part_000 but is not itself under src/.  Spec section 3:
`set_unique(key, value?, ifNotExists?)`; the option payloads are opaque to the
client. -/
structure EnvoyStorageSetUniqueOptions (V : Type) where
  value : Option V
  ifNotExists : Option Bool
deriving DecidableEq

/-- Modelled from the spec: `EnvoyStorageSetUniqueNumOptions` of the
`EnvoyStorageCommand` module (not under src/).  Spec section 3:
`set_unique_num(key, start?, increment?)`. -/
structure EnvoyStorageSetUniqueNumOptions where
  start : Option Int
  increment : Option Int
deriving DecidableEq

/-- Modelled from the spec: `EnvoyStorageCommand` (its defining module is not
under src/); wire shape from spec section 6:
`{ action: 'get'|'set'|'set_unique'|'set_unique_num'|'unset', key, value?,
  ...actionSpecificOptions }`.  `V` is the opaque JSON value type. -/
inductive EnvoyStorageCommand (V : Type) where
  | get (key : String)
  | set (key : String) (value : V)
  | set_unique (key : String) (opts : EnvoyStorageSetUniqueOptions V)
  | set_unique_num (key : String) (opts : EnvoyStorageSetUniqueNumOptions)
  | unset (key : String)
deriving DecidableEq

/-- Modelled from the spec: `EnvoyStorageItem` (not under src/); spec
section 6: `StorageItem = { key: string, value: unknown }`. -/
structure EnvoyStorageItem (V : Type) where
  key : String
  value : V
deriving DecidableEq

/-- The request body `storagePipeline` posts (src/src/EnvoyAPI.ts lines
261-264): always the commands, and `install_id` only when the passed
`installId` is truthy (so neither an absent one nor the empty string). -/
structure StorageRequest (V : Type) where
  commands : List (EnvoyStorageCommand V)
  install_id : Option String
deriving DecidableEq

/-- Build the request record of src/src/EnvoyAPI.ts lines 261-264. -/
def buildRequest {V : Type} (commands : List (EnvoyStorageCommand V))
    (installId : Option String) : StorageRequest V :=
  ⟨commands,
   match installId with
   | some i => if i = "" then none else some i
   | none => none⟩

/-- `EnvoyAPI.storagePipeline` (src/src/EnvoyAPI.ts lines 257-271).  The POST
goes through `this.axios`, whose response interceptor (lines 92-110) runs on
the storage response body `{ data: results }` too: `included` is undefined, so
`forEach` walks the result array itself, reading `.type` on each element — a
`null` element (a miss or a failed uniqueness precondition) throws a
`TypeError`, rejecting the whole call (`typeErr`); non-null items are primed
into the loader cache under the junk key `"undefined_undefined"`, a side
effect no claim observes and not threaded here.  A transport failure passes
through the error interceptor unchanged.  On pass-through the method returns
`data.data` unchanged. -/
def storagePipelineRun {E V : Type} (typeErr : E)
    (transport : StorageRequest V → Except E (List (Option (EnvoyStorageItem V))))
    (commands : List (EnvoyStorageCommand V)) (installId : Option String) :
    Except E (List (Option (EnvoyStorageItem V))) :=
  match transport (buildRequest commands installId) with
  | .error e => .error e
  | .ok results =>
    if results.all (fun r => r.isSome) then .ok results else .error typeErr

/-- `EnvoyPluginStoragePipeline` (src/unnamed/part_000 lines 72-142): the
bound installation id and the accumulated command list. -/
structure EnvoyPluginStoragePipeline (V : Type) where
  installId : Option String
  commands : List (EnvoyStorageCommand V)
deriving DecidableEq

namespace EnvoyPluginStoragePipeline

/-- `addCommand` (part_000 lines 100-103): push one command, return self. -/
def addCommand {V : Type} (p : EnvoyPluginStoragePipeline V)
    (cmd : EnvoyStorageCommand V) : EnvoyPluginStoragePipeline V :=
  ⟨p.installId, p.commands ++ [cmd]⟩

/-- `get` (part_000 lines 108-110). -/
def get {V : Type} (p : EnvoyPluginStoragePipeline V) (key : String) :
    EnvoyPluginStoragePipeline V :=
  p.addCommand (.get key)

/-- `set` (part_000 lines 116-118). -/
def set {V : Type} (p : EnvoyPluginStoragePipeline V) (key : String) (value : V) :
    EnvoyPluginStoragePipeline V :=
  p.addCommand (.set key value)

/-- `setUnique` (part_000 lines 124-126); the TS default for the options
argument is the empty object, passed explicitly here. -/
def setUnique {V : Type} (p : EnvoyPluginStoragePipeline V) (key : String)
    (opts : EnvoyStorageSetUniqueOptions V) : EnvoyPluginStoragePipeline V :=
  p.addCommand (.set_unique key opts)

/-- `setUniqueNum` (part_000 lines 132-134). -/
def setUniqueNum {V : Type} (p : EnvoyPluginStoragePipeline V) (key : String)
    (opts : EnvoyStorageSetUniqueNumOptions) : EnvoyPluginStoragePipeline V :=
  p.addCommand (.set_unique_num key opts)

/-- `unset` (part_000 lines 139-141). -/
def unset {V : Type} (p : EnvoyPluginStoragePipeline V) (key : String) :
    EnvoyPluginStoragePipeline V :=
  p.addCommand (.unset key)

/-- `execute` (part_000 lines 88-90): submit the whole pipeline through
`storagePipeline`. -/
def execute {E V : Type} (p : EnvoyPluginStoragePipeline V) (typeErr : E)
    (transport : StorageRequest V → Except E (List (Option (EnvoyStorageItem V)))) :
    Except E (List (Option (EnvoyStorageItem V))) :=
  storagePipelineRun typeErr transport p.commands p.installId

/-- `executeSingle` (part_000 lines 95-98): `const [result] = await execute()`
takes the first element of the result array.  In the returned
`Option (Option _)`, the outer `none` is JavaScript `undefined` (the absent
first element of an empty array), `some none` is a `null` result slot, and
`some (some item)` is a storage item. -/
def executeSingle {E V : Type} (p : EnvoyPluginStoragePipeline V) (typeErr : E)
    (transport : StorageRequest V → Except E (List (Option (EnvoyStorageItem V)))) :
    Except E (Option (Option (EnvoyStorageItem V))) :=
  match p.execute typeErr transport with
  | .error e => .error e
  | .ok rs => .ok rs.head?

end EnvoyPluginStoragePipeline

/-! ### Cache lemmas -/

theorem cacheLookup_nil (k : String) : cacheLookup [] k = none := rfl

theorem cacheLookup_cons (k' : String) (v : JSResult) (c : Cache) (k : String) :
    cacheLookup ((k', v) :: c) k = if k' = k then some v else cacheLookup c k := by
  by_cases h : k' = k <;> simp [cacheLookup, List.find?, h]

theorem cacheLookup_primeEntry_none (c : Cache) (k : String) (v : JSResult)
    (h : cacheLookup c k = none) : cacheLookup (primeEntry c k v) k = some v := by
  simp [primeEntry, h, cacheLookup_cons]

theorem cacheLookup_primeEntry_some (c : Cache) (k : String) (v w : JSResult)
    (h : cacheLookup c k = some w) : primeEntry c k v = c := by
  simp [primeEntry, h]

theorem primeEntry_lookup_isSome_self (c : Cache) (k : String) (v : JSResult) :
    (cacheLookup (primeEntry c k v) k).isSome := by
  unfold primeEntry
  split
  · assumption
  · simp [cacheLookup_cons]

theorem primeEntry_isSome_mono (c : Cache) (k k' : String) (v : JSResult)
    (h : (cacheLookup c k).isSome) :
    (cacheLookup (primeEntry c k' v) k).isSome := by
  unfold primeEntry
  split
  · exact h
  · rw [cacheLookup_cons]
    split
    · simp
    · exact h

theorem primeModel_isSome_mono (c : Cache) (m : JSONAPIData) (k : String)
    (h : (cacheLookup c k).isSome) :
    (cacheLookup (primeModel c m) k).isSome := by
  unfold primeModel
  split
  · exact primeEntry_isSome_mono _ _ _ _ (primeEntry_isSome_mono _ _ _ _ h)
  · exact primeEntry_isSome_mono _ _ _ _ h

theorem primeModel_natKey_isSome (c : Cache) (m : JSONAPIData) :
    (cacheLookup (primeModel c m) (m.type ++ "_" ++ m.id)).isSome := by
  unfold primeModel
  split
  · exact primeEntry_isSome_mono _ _ _ _ (primeEntry_lookup_isSome_self _ _ _)
  · exact primeEntry_lookup_isSome_self _ _ _

theorem primeModel_aliasKey_isSome (c : Cache) (m : JSONAPIData) (a : String)
    (h : TYPE_ALIASES m.type = some a) :
    (cacheLookup (primeModel c m) (a ++ "_" ++ m.id)).isSome := by
  unfold primeModel
  split
  · next a' h' =>
    rw [h] at h'
    cases h'
    exact primeEntry_lookup_isSome_self _ _ _
  · next h' => rw [h] at h'; cases h'

theorem foldl_primeModel_isSome_mono (ms : List JSONAPIData) (c : Cache) (k : String)
    (h : (cacheLookup c k).isSome) :
    (cacheLookup (ms.foldl primeModel c) k).isSome := by
  induction ms generalizing c with
  | nil => exact h
  | cons m ms ih => exact ih _ (primeModel_isSome_mono _ _ _ h)

theorem foldl_primeModel_mem_natKey (ms : List JSONAPIData) (m : JSONAPIData) :
    ∀ (c : Cache), m ∈ ms →
      (cacheLookup (ms.foldl primeModel c) (m.type ++ "_" ++ m.id)).isSome := by
  induction ms with
  | nil => intro c hm; cases hm
  | cons m' ms ih =>
    intro c hm
    simp only [List.foldl_cons]
    rcases List.mem_cons.mp hm with h | h
    · subst h
      exact foldl_primeModel_isSome_mono ms (primeModel c m) _ (primeModel_natKey_isSome c m)
    · exact ih (primeModel c m') h

theorem foldl_primeModel_mem_aliasKey (ms : List JSONAPIData) (m : JSONAPIData)
    (a : String) (ha : TYPE_ALIASES m.type = some a) :
    ∀ (c : Cache), m ∈ ms →
      (cacheLookup (ms.foldl primeModel c) (a ++ "_" ++ m.id)).isSome := by
  induction ms with
  | nil => intro c hm; cases hm
  | cons m' ms ih =>
    intro c hm
    simp only [List.foldl_cons]
    rcases List.mem_cons.mp hm with h | h
    · subst h
      exact foldl_primeModel_isSome_mono ms (primeModel c m) _
        (primeModel_aliasKey_isSome c m a ha)
    · exact ih (primeModel c m') h

theorem cacheLookup_eraseKey_self (c : Cache) (k : String) :
    cacheLookup (eraseKey c k) k = none := by
  induction c with
  | nil => rfl
  | cons e c ih =>
    by_cases h : e.1 = k
    · simpa [eraseKey, h] using ih
    · obtain ⟨k', v⟩ := e
      simp only [eraseKey, if_neg h]
      rw [cacheLookup_cons, if_neg h, ih]

/-- The resources the interceptor's `forEach` walks from `data.data`. -/
def dataModels : BodyData → List JSONAPIData
  | .one m => [m]
  | .many ms => ms

theorem absorb_ok_eq (c : Cache) (b : InterceptBody) (d : BodyData)
    (h : b.dataField = some d) :
    absorb c b = .ok ((b.included.getD [] ++ dataModels d).foldl primeModel c) := by
  cases d <;> simp [absorb, h, dataModels, List.foldl_append]

/-! ### Batch-queue lemmas -/

theorem collectQueue_nodup (c : Cache) (ks : List EnvoyWebDataLoaderKey) :
    ∀ acc, (acc.map cacheKeyFn).Nodup →
      ((collectQueue c ks acc).map cacheKeyFn).Nodup := by
  induction ks with
  | nil => intro acc h; exact h
  | cons k ks ih =>
    intro acc h
    rw [collectQueue]
    split
    · exact ih acc h
    · next hcond =>
      apply ih
      have hnm : cacheKeyFn k ∉ acc.map cacheKeyFn := by
        intro hmem
        rcases List.mem_map.mp hmem with ⟨q, hq, hqe⟩
        apply hcond
        have : (acc.any fun q => cacheKeyFn q == cacheKeyFn k) = true :=
          List.any_eq_true.mpr ⟨q, hq, by simp [hqe]⟩
        simp [this]
      rw [List.map_append]
      refine List.Nodup.append h (by simp) ?_
      intro x hx hx'
      simp only [List.map_cons, List.map_nil, List.mem_singleton] at hx'
      subst hx'
      exact hnm hx

theorem collectQueue_mem (c : Cache) (ks : List EnvoyWebDataLoaderKey) :
    ∀ acc k', k' ∈ collectQueue c ks acc → k' ∈ acc ∨ k' ∈ ks := by
  induction ks with
  | nil => intro acc k' h; exact Or.inl h
  | cons k ks ih =>
    intro acc k' h
    rw [collectQueue] at h
    split at h
    · rcases ih acc k' h with h1 | h1
      · exact Or.inl h1
      · exact Or.inr (List.mem_cons_of_mem _ h1)
    · rcases ih (acc ++ [k]) k' h with h1 | h1
      · rcases List.mem_append.mp h1 with h2 | h2
        · exact Or.inl h2
        · simp only [List.mem_singleton] at h2
          subst h2
          exact Or.inr (List.mem_cons_self _ _)
      · exact Or.inr (List.mem_cons_of_mem _ h1)

theorem collectQueue_stop (c : Cache) (ks : List EnvoyWebDataLoaderKey) :
    ∀ acc, (∀ k ∈ ks, (acc.any fun q => cacheKeyFn q == cacheKeyFn k) = true) →
      collectQueue c ks acc = acc := by
  induction ks with
  | nil => intro acc _; rfl
  | cons k ks ih =>
    intro acc h
    have hk := h k (List.mem_cons_self _ _)
    rw [collectQueue, hk, Bool.or_true]
    simp only [if_true]
    exact ih acc (fun k' hk' => h k' (List.mem_cons_of_mem _ hk'))

theorem collectQueue_singleton_uncached (c : Cache) (k : EnvoyWebDataLoaderKey)
    (h : cacheLookup c (cacheKeyFn k) = none) :
    collectQueue c [k] [] = [k] := by
  rw [collectQueue, h]
  rfl

theorem collectQueue_singleton_cached (c : Cache) (k : EnvoyWebDataLoaderKey)
    (h : (cacheLookup c (cacheKeyFn k)).isSome) :
    collectQueue c [k] [] = [] := by
  rw [collectQueue, h]
  rfl

theorem collectQueue_replicate (c : Cache) (k : EnvoyWebDataLoaderKey) (n : Nat)
    (h : cacheLookup c (cacheKeyFn k) = none) :
    collectQueue c (k :: List.replicate n k) [] = [k] := by
  rw [collectQueue, h]
  simp only [Option.isSome_none, List.any_nil, Bool.or_false, Bool.false_eq_true,
    if_false]
  exact collectQueue_stop c _ [k] (by
    intro k' hk'
    have := List.eq_of_mem_replicate hk'
    subst this
    simp)

/-! ### Dispatch lemmas -/

theorem dispatchAll_nil {E : Type} (c : Cache) (te : E)
    (fetch : EnvoyWebDataLoaderKey → Except E InterceptBody) :
    dispatchAll c [] te fetch = (c, []) := rfl

theorem dispatchAll_singleton_err {E : Type} (c : Cache) (k : EnvoyWebDataLoaderKey)
    (te e : E) (fetch : EnvoyWebDataLoaderKey → Except E InterceptBody)
    (h : fetch k = .error e) :
    dispatchAll c [k] te fetch = (eraseKey c (cacheKeyFn k), [(cacheKeyFn k, .error e)]) := by
  simp [dispatchAll, dispatchStep, h, firstError]

theorem dispatchAll_singleton_ok {E : Type} (c : Cache) (k : EnvoyWebDataLoaderKey)
    (te : E) (fetch : EnvoyWebDataLoaderKey → Except E InterceptBody)
    (body : InterceptBody) (d : BodyData)
    (hf : fetch k = .ok body) (hd : body.dataField = some d) :
    dispatchAll c [k] te fetch =
      (setEntry ((body.included.getD [] ++ dataModels d).foldl primeModel c)
        (cacheKeyFn k) (dataValue d),
       [(cacheKeyFn k, .ok (dataValue d))]) := by
  simp [dispatchAll, dispatchStep, hf, absorb_ok_eq c body d hd, hd, firstError,
    List.foldl_append]

theorem dispatchAll_singleton_shape {E : Type} (c : Cache) (k : EnvoyWebDataLoaderKey)
    (te : E) (fetch : EnvoyWebDataLoaderKey → Except E InterceptBody) :
    ∃ r, (dispatchAll c [k] te fetch).2 = [(cacheKeyFn k, r)] := by
  cases hf : fetch k with
  | error e =>
    exact ⟨.error e, by rw [dispatchAll_singleton_err c k te e fetch hf]⟩
  | ok body =>
    cases hd : body.dataField with
    | none =>
      refine ⟨.error te, ?_⟩
      simp [dispatchAll, dispatchStep, hf, absorb, hd, firstError]
    | some d =>
      exact ⟨.ok (dataValue d), by rw [dispatchAll_singleton_ok c k te fetch body d hf hd]⟩

theorem dispatchAll_singleton_throw_snd {E : Type} (c : Cache)
    (k : EnvoyWebDataLoaderKey) (te : E)
    (fetch : EnvoyWebDataLoaderKey → Except E InterceptBody) (body : InterceptBody)
    (hf : fetch k = .ok body) (hd : body.dataField = none) :
    (dispatchAll c [k] te fetch).2 = [(cacheKeyFn k, .error te)] := by
  simp [dispatchAll, dispatchStep, hf, absorb, hd, firstError]

theorem runTick_singleton_cached {E : Type} (c : Cache) (k : EnvoyWebDataLoaderKey)
    (v : JSResult) (te : E) (fetch : EnvoyWebDataLoaderKey → Except E InterceptBody)
    (hv : cacheLookup c (cacheKeyFn k) = some v) :
    (runTick c [k] te fetch).fetched = [] ∧
    (runTick c [k] te fetch).results = [.ok v] := by
  have hq : collectQueue c [k] [] = [] :=
    collectQueue_singleton_cached c k (by rw [hv]; rfl)
  constructor
  · show collectQueue _ _ [] = _
    exact hq
  · simp [runTick, hq, hv, dispatchAll_nil]

theorem dedup_map_length_le {α β : Type} [DecidableEq α] [DecidableEq β]
    (f : α → β) (l : List α) :
    ((l.map f).dedup).length ≤ l.dedup.length := by
  have h1 : (l.map f).dedup ⊆ (l.dedup).map f := by
    intro x hx
    rcases List.mem_map.mp (List.mem_dedup.mp hx) with ⟨a, ha, hax⟩
    exact List.mem_map.mpr ⟨a, List.mem_dedup.mpr ha, hax⟩
  have h2 : ((l.map f).dedup).Nodup := List.nodup_dedup _
  calc ((l.map f).dedup).length ≤ ((l.dedup).map f).length := (h2.subperm h1).length_le
    _ = l.dedup.length := List.length_map _ _

/-! ### Concrete fixtures for counterexamples and witnesses -/

/-- A sample fetch: each key resolves to one resource carrying that key's type
and id (payload 0), nothing included. -/
def sampleFetch : EnvoyWebDataLoaderKey → Except Unit InterceptBody :=
  fun k => .ok ⟨some (.one ⟨k.type, k.id, 0⟩), none⟩

/-- A fetch whose every response also includes the secondary resource
`(flows, 9)` with payload 3. -/
def includedFetch : EnvoyWebDataLoaderKey → Except Unit InterceptBody :=
  fun k => .ok ⟨some (.one ⟨k.type, k.id, 0⟩), some [⟨"flows", "9", 3⟩]⟩

/-- A fetch that always fails with the upstream error `"boom"`. -/
def failFetch : EnvoyWebDataLoaderKey → Except String InterceptBody :=
  fun _ => .error "boom"

/-- A fetch whose responses lack the `data` field (one included resource). -/
def noDataFetch : EnvoyWebDataLoaderKey → Except Unit InterceptBody :=
  fun _ => .ok ⟨none, some [⟨"flows", "9", 3⟩]⟩

/-! ### Claims -/

/-- C1, counterexample.  The claim: two load requests with the same
`(type, id)` but different include directives are distinct cache entries and
distinct batchable units, each with its own upstream fetch.  On the code,
`cacheKeyFn` drops the include directive.  At the concrete input — one tick
loading `{employees, 1, include:"flow"}` and then `{employees, 1}` against an
empty cache — only one fetch (for the first key) is dispatched, not two, and
the second request resolves from the first's batch entry with the identical
value. -/
theorem C1_counterexample :
    (runTick [] [⟨"employees", "1", some "flow"⟩, ⟨"employees", "1", none⟩] ()
        sampleFetch).fetched = [⟨"employees", "1", some "flow"⟩] ∧
    ¬ (runTick [] [⟨"employees", "1", some "flow"⟩, ⟨"employees", "1", none⟩] ()
        sampleFetch).fetched.length = 2 ∧
    (runTick [] [⟨"employees", "1", some "flow"⟩, ⟨"employees", "1", none⟩] ()
        sampleFetch).results
      = [.ok (.model ⟨"employees", "1", 0⟩), .ok (.model ⟨"employees", "1", 0⟩)] := by
  decide

/-- C1, amended.  The include directive is not part of the loader's cache key:
requests sharing `(type, id)` share one cache key whatever their includes, so
a tick that loads the same identity under two include directives dispatches a
single upstream fetch — the first request's key — and both callers share its
outcome. -/
theorem C1_include_not_in_cache_key {E : Type} (t i : String)
    (inc1 inc2 : Option String) (te : E)
    (fetch : EnvoyWebDataLoaderKey → Except E InterceptBody) :
    cacheKeyFn ⟨t, i, inc1⟩ = cacheKeyFn ⟨t, i, inc2⟩ ∧
    (runTick [] [⟨t, i, inc1⟩, ⟨t, i, inc2⟩] te fetch).fetched = [⟨t, i, inc1⟩] ∧
    ∃ r, (runTick [] [⟨t, i, inc1⟩, ⟨t, i, inc2⟩] te fetch).results = [r, r] := by
  have hq : collectQueue [] [⟨t, i, inc1⟩, ⟨t, i, inc2⟩] [] = [⟨t, i, inc1⟩] := by
    simp [collectQueue, cacheLookup_nil, cacheKeyFn]
  refine ⟨rfl, ?_, ?_⟩
  · show collectQueue [] [⟨t, i, inc1⟩, ⟨t, i, inc2⟩] [] = _
    exact hq
  · obtain ⟨r0, hout⟩ := dispatchAll_singleton_shape [] ⟨t, i, inc1⟩ te fetch
    refine ⟨r0, ?_⟩
    simp [runTick, hq, hout, cacheLookup_nil, cacheKeyFn]

/-- C2, counterexample.  The claim: alias caching is symmetric, so priming an
entity of type `"flows"` with id `"42"` makes
`load({type:"employee-screening-flows", id:"42"})` resolve from cache with no
upstream fetch.  On the code, the interceptor's priming step looks the
resource's own type up in `TYPE_ALIASES`, and `"flows"` has no entry there:
after priming the `(flows, 42)` resource, the cache has no entry under
`"employee-screening-flows_42"`, and the load dispatches its own fetch. -/
theorem C2_counterexample :
    cacheLookup (primeModel [] ⟨"flows", "42", 0⟩) "employee-screening-flows_42"
      = none ∧
    (runTick (primeModel [] ⟨"flows", "42", 0⟩)
        [⟨"employee-screening-flows", "42", none⟩] () sampleFetch).fetched
      = [⟨"employee-screening-flows", "42", none⟩] := by
  decide

/-- C2, amended.  Alias priming is one-directional: a resource arriving with
the alias type `"employee-screening-flows"` is primed both under its own type
and under `"flows"`, so a later load of `{flows, 42}` resolves from cache with
no fetch; but a resource arriving with the canonical type `"flows"` is primed
only under `"flows"`, leaving no entry under the alias name. -/
theorem C2_alias_priming_one_directional {E : Type} (p : Nat) (te : E)
    (fetch : EnvoyWebDataLoaderKey → Except E InterceptBody) :
    ((runTick (primeModel [] ⟨"employee-screening-flows", "42", p⟩)
        [⟨"flows", "42", none⟩] te fetch).fetched = [] ∧
      (runTick (primeModel [] ⟨"employee-screening-flows", "42", p⟩)
        [⟨"flows", "42", none⟩] te fetch).results
        = [.ok (.model ⟨"employee-screening-flows", "42", p⟩)]) ∧
    cacheLookup (primeModel [] ⟨"flows", "42", p⟩) "employee-screening-flows_42"
      = none := by
  have hcache : primeModel [] ⟨"employee-screening-flows", "42", p⟩
      = [("flows_42", .model ⟨"employee-screening-flows", "42", p⟩),
         ("employee-screening-flows_42", .model ⟨"employee-screening-flows", "42", p⟩)] := by
    simp [primeModel, primeEntry, TYPE_ALIASES, cacheLookup]
  have hl : cacheLookup (primeModel [] ⟨"employee-screening-flows", "42", p⟩)
      (cacheKeyFn ⟨"flows", "42", none⟩)
      = some (.model ⟨"employee-screening-flows", "42", p⟩) := by
    rw [hcache]
    simp [cacheKeyFn, cacheLookup_cons]
  have hq : collectQueue (primeModel [] ⟨"employee-screening-flows", "42", p⟩)
      [⟨"flows", "42", none⟩] [] = [] :=
    collectQueue_singleton_cached _ _ (by rw [hl]; rfl)
  refine ⟨⟨?_, ?_⟩, ?_⟩
  · show collectQueue _ _ [] = _
    exact hq
  · simp [runTick, hq, hl, dispatchAll_nil]
  · simp [primeModel, primeEntry, TYPE_ALIASES, cacheLookup]

/-- C5, counterexample.  The claim: `prime(key, resource)` overwrites any
existing entry for that key.  On the code, the dataloader's `prime` only adds
a key that does not already exist: at the concrete input, a second prime of
the same key with a different payload leaves the cache unchanged and a lookup
still yields the first value. -/
theorem C5_counterexample :
    prime (prime [] ⟨"employees", "1", none⟩ (.model ⟨"employees", "1", 1⟩))
        ⟨"employees", "1", none⟩ (.model ⟨"employees", "1", 2⟩)
      = prime [] ⟨"employees", "1", none⟩ (.model ⟨"employees", "1", 1⟩) ∧
    cacheLookup
        (prime (prime [] ⟨"employees", "1", none⟩ (.model ⟨"employees", "1", 1⟩))
          ⟨"employees", "1", none⟩ (.model ⟨"employees", "1", 2⟩))
        "employees_1"
      = some (.model ⟨"employees", "1", 1⟩) := by
  decide

/-- C5, amended.  `prime(key, resource)` inserts into the cache without
triggering a fetch only when no entry for the key exists, and never overwrites
an existing entry; a prime of a fresh key followed by a load of that key
resolves to the primed value with no upstream fetch. -/
theorem C5_prime_no_overwrite {E : Type} (c : Cache) (k : EnvoyWebDataLoaderKey)
    (v w : JSResult) (te : E)
    (fetch : EnvoyWebDataLoaderKey → Except E InterceptBody) :
    (cacheLookup c (cacheKeyFn k) = some w → prime c k v = c) ∧
    (cacheLookup c (cacheKeyFn k) = none →
      (runTick (prime c k v) [k] te fetch).fetched = [] ∧
      (runTick (prime c k v) [k] te fetch).results = [.ok v]) := by
  constructor
  · intro h
    exact cacheLookup_primeEntry_some c (cacheKeyFn k) v w h
  · intro h
    have hl : cacheLookup (prime c k v) (cacheKeyFn k) = some v :=
      cacheLookup_primeEntry_none c _ v h
    have hq : collectQueue (prime c k v) [k] [] = [] :=
      collectQueue_singleton_cached _ _ (by rw [hl]; rfl)
    constructor
    · show collectQueue _ _ [] = _
      exact hq
    · simp [runTick, hq, hl, dispatchAll_nil]

/-- C5, witness for the amended theorem at a concrete input: priming the fresh
key `(employees, 9)` and then loading it yields no fetch and the primed
value. -/
theorem C5_witness :
    (runTick (prime [] ⟨"employees", "9", none⟩ (.model ⟨"employees", "9", 5⟩))
        [⟨"employees", "9", none⟩] () sampleFetch).fetched = [] ∧
    (runTick (prime [] ⟨"employees", "9", none⟩ (.model ⟨"employees", "9", 5⟩))
        [⟨"employees", "9", none⟩] () sampleFetch).results
      = [.ok (.model ⟨"employees", "9", 5⟩)] :=
  (C5_prime_no_overwrite [] ⟨"employees", "9", none⟩ (.model ⟨"employees", "9", 5⟩)
    (.model ⟨"employees", "9", 5⟩) () sampleFetch).2 (by decide)

/-- C7, counterexample.  The claim: a successful response whose body lacks the
expected shape never makes the absorption step throw; it primes nothing and
the caller still receives the raw response.  On the code, a body with no
`data` field makes `concat` contribute `undefined`, and reading `.type` of it
throws — after the included resource has already been primed: at the concrete
input the interceptor throws with one primed entry. -/
theorem C7_counterexample :
    absorb [] ⟨none, some [⟨"employees", "7", 0⟩]⟩
      = .error [("employees_7", .model ⟨"employees", "7", 0⟩)] := by
  decide

/-- C7, amended.  When the body has a `data` field the absorption step primes
and passes the response through; when the `data` field is missing it first
primes every included resource and then throws (the TypeError from reading
`.type` of `undefined`), so the caller of the load receives a rejection
instead of the raw response. -/
theorem C7_absorb_throws_on_missing_data {E : Type} (c : Cache)
    (incl : Option (List JSONAPIData)) (d : BodyData) (k : EnvoyWebDataLoaderKey)
    (te : E) (fetch : EnvoyWebDataLoaderKey → Except E InterceptBody) :
    (∃ c1, absorb c ⟨some d, incl⟩ = .ok c1) ∧
    absorb c ⟨none, incl⟩ = .error ((incl.getD []).foldl primeModel c) ∧
    (cacheLookup c (cacheKeyFn k) = none → fetch k = .ok ⟨none, incl⟩ →
      (runTick c [k] te fetch).results = [.error te]) := by
  refine ⟨⟨(incl.getD [] ++ dataModels d).foldl primeModel c, absorb_ok_eq _ _ _ rfl⟩,
    rfl, ?_⟩
  intro hc hf
  have hq : collectQueue c [k] [] = [k] := collectQueue_singleton_uncached c k hc
  have hout := dispatchAll_singleton_throw_snd c k te fetch ⟨none, incl⟩ hf rfl
  simp [runTick, hq, hout, hc]

/-- C7, witness for the amended theorem at a concrete input: loading the
uncached key `(employees, 7)` over a transport whose response has no `data`
field rejects the load. -/
theorem C7_witness :
    (runTick [] [⟨"employees", "7", none⟩] () noDataFetch).results = [.error ()] :=
  (C7_absorb_throws_on_missing_data [] (some [⟨"flows", "9", 3⟩])
    (.one ⟨"employees", "7", 0⟩) ⟨"employees", "7", none⟩ () noDataFetch).2.2
    (by decide) (by decide)

/-- C3.  Within one batching tick the dispatched fetches have pairwise
distinct cache keys (at most one upstream fetch per unique key) and number at
most the number of distinct requested keys; and `n > 0` concurrent loads of
one uncached key `k`, issued before any resolves, dispatch exactly the one
fetch for `k`, with all `n` callers receiving the same resolved value. -/
theorem C3_dedup_batching {E : Type} (c : Cache) (ks : List EnvoyWebDataLoaderKey)
    (te : E) (fetch : EnvoyWebDataLoaderKey → Except E InterceptBody) :
    ((runTick c ks te fetch).fetched.map cacheKeyFn).Nodup ∧
    (runTick c ks te fetch).fetched.length ≤ ks.dedup.length ∧
    (∀ (n : Nat) (k : EnvoyWebDataLoaderKey) (body : InterceptBody) (d : BodyData),
      0 < n → cacheLookup c (cacheKeyFn k) = none →
      fetch k = .ok body → body.dataField = some d →
      (runTick c (List.replicate n k) te fetch).fetched = [k] ∧
      (runTick c (List.replicate n k) te fetch).results
        = List.replicate n (.ok (dataValue d))) := by
  have hfq : (runTick c ks te fetch).fetched = collectQueue c ks [] := rfl
  refine ⟨?_, ?_, ?_⟩
  · rw [hfq]
    exact collectQueue_nodup c ks [] (by simp)
  · rw [hfq]
    have hsub : (collectQueue c ks []).map cacheKeyFn ⊆ (ks.map cacheKeyFn).dedup := by
      intro x hx
      rcases List.mem_map.mp hx with ⟨k', hk', rfl⟩
      rcases collectQueue_mem c ks [] k' hk' with h | h
      · cases h
      · exact List.mem_dedup.mpr (List.mem_map.mpr ⟨k', h, rfl⟩)
    have hnd := collectQueue_nodup c ks [] (by simp)
    calc (collectQueue c ks []).length
        = ((collectQueue c ks []).map cacheKeyFn).length := (List.length_map _ _).symm
      _ ≤ ((ks.map cacheKeyFn).dedup).length := (hnd.subperm hsub).length_le
      _ ≤ ks.dedup.length := dedup_map_length_le cacheKeyFn ks
  · intro n k body d hn hc hf hd
    obtain ⟨m, rfl⟩ := Nat.exists_eq_succ_of_ne_zero (Nat.pos_iff_ne_zero.mp hn)
    have hq : collectQueue c (List.replicate (m + 1) k) [] = [k] := by
      rw [List.replicate_succ]
      exact collectQueue_replicate c k m hc
    have hda := dispatchAll_singleton_ok c k te fetch body d hf hd
    constructor
    · show collectQueue _ _ [] = _
      exact hq
    · simp [runTick, hq, hda, hc, List.map_replicate]

/-- C3, witness at a concrete input: two concurrent loads of the uncached key
`(employees, 3)` dispatch one fetch and both resolve to the fetched
resource. -/
theorem C3_witness :
    (runTick [] (List.replicate 2 ⟨"employees", "3", none⟩) () sampleFetch).fetched
      = [⟨"employees", "3", none⟩] ∧
    (runTick [] (List.replicate 2 ⟨"employees", "3", none⟩) () sampleFetch).results
      = List.replicate 2 (.ok (.model ⟨"employees", "3", 0⟩)) :=
  (C3_dedup_batching [] [] () sampleFetch).2.2 2 ⟨"employees", "3", none⟩
    ⟨some (.one ⟨"employees", "3", 0⟩), none⟩ (.one ⟨"employees", "3", 0⟩)
    (by decide) rfl rfl rfl

/-- C4.  A successful absorption leaves a cache entry for every processed
resource (included ones and the primary ones) under its natural `(type, id)`
key and, when `TYPE_ALIASES` maps its type, under the alias-mapped key too;
hence when `load(k1)` fetches a response whose included list carries a
resource with identity `k2`, a subsequent `load(k2)` resolves from cache with
no further upstream fetch. -/
theorem C4_absorption_primes_and_caches {E : Type} (c c1 : Cache)
    (b : InterceptBody) (d : BodyData)
    (hd : b.dataField = some d) (hab : absorb c b = .ok c1) :
    (∀ m ∈ b.included.getD [] ++ dataModels d,
      (cacheLookup c1 (m.type ++ "_" ++ m.id)).isSome ∧
      ∀ a, TYPE_ALIASES m.type = some a →
        (cacheLookup c1 (a ++ "_" ++ m.id)).isSome) ∧
    (∀ (k1 k2 : EnvoyWebDataLoaderKey) (te : E)
        (fetch : EnvoyWebDataLoaderKey → Except E InterceptBody)
        (m2 : JSONAPIData),
      cacheLookup c (cacheKeyFn k1) = none →
      fetch k1 = .ok b →
      m2 ∈ b.included.getD [] →
      k2.type = m2.type → k2.id = m2.id →
      (runTick (runTick c [k1] te fetch).cache [k2] te fetch).fetched = [] ∧
      ∃ v, (runTick (runTick c [k1] te fetch).cache [k2] te fetch).results
        = [.ok v]) := by
  have hc1 : c1 = (b.included.getD [] ++ dataModels d).foldl primeModel c := by
    have h2 := absorb_ok_eq c b d hd
    rw [hab] at h2
    exact Except.ok.inj h2
  subst hc1
  constructor
  · intro m hm
    refine ⟨foldl_primeModel_mem_natKey _ m c hm, ?_⟩
    intro a ha
    exact foldl_primeModel_mem_aliasKey _ m a ha c hm
  · intro k1 k2 te fetch m2 hck1 hf hm2 ht hi
    have hq1 : collectQueue c [k1] [] = [k1] :=
      collectQueue_singleton_uncached c k1 hck1
    have hda := dispatchAll_singleton_ok c k1 te fetch b d hf hd
    have hcache1 : (runTick c [k1] te fetch).cache
        = setEntry ((b.included.getD [] ++ dataModels d).foldl primeModel c)
            (cacheKeyFn k1) (dataValue d) := by
      simp [runTick, hq1, hda]
    have hk2key : cacheKeyFn k2 = m2.type ++ "_" ++ m2.id := by
      simp [cacheKeyFn, ht, hi]
    have hsome : (cacheLookup (runTick c [k1] te fetch).cache
        (cacheKeyFn k2)).isSome := by
      rw [hcache1, setEntry, cacheLookup_cons]
      split
      · rfl
      · rw [hk2key]
        exact foldl_primeModel_mem_natKey _ m2 c (List.mem_append.mpr (Or.inl hm2))
    obtain ⟨v, hv⟩ := Option.isSome_iff_exists.mp hsome
    have h2 := runTick_singleton_cached (runTick c [k1] te fetch).cache k2 v te fetch hv
    exact ⟨h2.1, v, h2.2⟩

/-- C4, witness at a concrete input: after loading `(employees, 1)` over a
transport whose response includes the secondary resource `(flows, 9)`, loading
`(flows, 9)` dispatches no fetch and resolves from cache. -/
theorem C4_witness :
    (runTick (runTick [] [⟨"employees", "1", none⟩] () includedFetch).cache
        [⟨"flows", "9", none⟩] () includedFetch).fetched = [] ∧
    ∃ v, (runTick (runTick [] [⟨"employees", "1", none⟩] () includedFetch).cache
        [⟨"flows", "9", none⟩] () includedFetch).results = [.ok v] :=
  (C4_absorption_primes_and_caches []
      [("employees_1", .model ⟨"employees", "1", 0⟩),
       ("flows_9", .model ⟨"flows", "9", 3⟩)]
      ⟨some (.one ⟨"employees", "1", 0⟩), some [⟨"flows", "9", 3⟩]⟩
      (.one ⟨"employees", "1", 0⟩) rfl (by decide)).2
    ⟨"employees", "1", none⟩ ⟨"flows", "9", none⟩ () includedFetch
    ⟨"flows", "9", 3⟩ rfl rfl (by decide) rfl rfl

/-- C6.  When the upstream fetch for an uncached key `k` fails, every waiter
for `k` in the tick is rejected with the upstream error itself, the failure
leaves no cache entry for `k`, and a later `load(k)` dispatches a fresh
upstream fetch instead of observing a cached failure. -/
theorem C6_failure_not_cached {E : Type} (c : Cache) (k : EnvoyWebDataLoaderKey)
    (n : Nat) (te e : E) (fetch : EnvoyWebDataLoaderKey → Except E InterceptBody)
    (hn : 0 < n) (hc : cacheLookup c (cacheKeyFn k) = none)
    (hf : fetch k = .error e) :
    (runTick c (List.replicate n k) te fetch).results
      = List.replicate n (.error e) ∧
    cacheLookup (runTick c (List.replicate n k) te fetch).cache (cacheKeyFn k)
      = none ∧
    (runTick c (List.replicate n k) te fetch).fetched = [k] ∧
    (runTick (runTick c (List.replicate n k) te fetch).cache [k] te fetch).fetched
      = [k] := by
  obtain ⟨m, rfl⟩ := Nat.exists_eq_succ_of_ne_zero (Nat.pos_iff_ne_zero.mp hn)
  have hq : collectQueue c (List.replicate (m + 1) k) [] = [k] := by
    rw [List.replicate_succ]
    exact collectQueue_replicate c k m hc
  have hda := dispatchAll_singleton_err c k te e fetch hf
  have hcache : (runTick c (List.replicate (m + 1) k) te fetch).cache
      = eraseKey c (cacheKeyFn k) := by
    simp [runTick, hq, hda]
  refine ⟨?_, ?_, ?_, ?_⟩
  · simp [runTick, hq, hda, hc, List.map_replicate]
  · rw [hcache]
    exact cacheLookup_eraseKey_self c (cacheKeyFn k)
  · show collectQueue _ _ [] = _
    exact hq
  · rw [hcache]
    exact collectQueue_singleton_uncached _ _ (cacheLookup_eraseKey_self _ _)

/-- C6, witness at a concrete input: two concurrent loads of the uncached key
`(employees, 4)` over a failing transport are both rejected with the upstream
error, leave no cache entry, and a retry dispatches a fresh fetch. -/
theorem C6_witness :
    (runTick [] (List.replicate 2 ⟨"employees", "4", none⟩) "TypeError"
        failFetch).results = List.replicate 2 (.error "boom") ∧
    cacheLookup (runTick [] (List.replicate 2 ⟨"employees", "4", none⟩)
        "TypeError" failFetch).cache (cacheKeyFn ⟨"employees", "4", none⟩)
      = none ∧
    (runTick [] (List.replicate 2 ⟨"employees", "4", none⟩) "TypeError"
        failFetch).fetched = [⟨"employees", "4", none⟩] ∧
    (runTick (runTick [] (List.replicate 2 ⟨"employees", "4", none⟩) "TypeError"
        failFetch).cache [⟨"employees", "4", none⟩] "TypeError" failFetch).fetched
      = [⟨"employees", "4", none⟩] :=
  C6_failure_not_cached [] ⟨"employees", "4", none⟩ 2 "TypeError" "boom" failFetch
    (by decide) rfl rfl

/-- C8, evaluation at the failing input.  The pipeline holding the single
command `get "b"` (so `get` appended exactly that one command), executed
against a transport that responds successfully with the one-element result
list `[null]`, does not resolve to `[null]`: the response interceptor walks
the result array, reads `.type` of the `null` element and throws, so the whole
`execute()` rejects — contradicting the claim and the code's own declared
`Array<EnvoyStorageItem | null>` result. -/
theorem C8_null_result_rejects :
    (EnvoyPluginStoragePipeline.get
        (⟨none, []⟩ : EnvoyPluginStoragePipeline Nat) "b").commands
      = [.get "b"] ∧
    EnvoyPluginStoragePipeline.execute
        (EnvoyPluginStoragePipeline.get
          (⟨none, []⟩ : EnvoyPluginStoragePipeline Nat) "b") ()
        (fun _ => .ok [none])
      = .error () := by
  exact ⟨rfl, rfl⟩

/-- C9.  A transport failure during `execute()` rejects the whole call with
that error unchanged; no result list — partial or otherwise — is produced. -/
theorem C9_transport_error_rejects_whole {E V : Type}
    (p : EnvoyPluginStoragePipeline V) (te e : E)
    (transport : StorageRequest V → Except E (List (Option (EnvoyStorageItem V))))
    (h : transport (buildRequest p.commands p.installId) = .error e) :
    p.execute te transport = .error e := by
  simp [EnvoyPluginStoragePipeline.execute, storagePipelineRun, h]

/-- C9, witness at a concrete input: a one-command pipeline over a transport
failing with `"ECONNRESET"` rejects with exactly that error. -/
theorem C9_witness :
    EnvoyPluginStoragePipeline.execute
        (⟨none, [.get "a"]⟩ : EnvoyPluginStoragePipeline Nat) "TypeError"
        (fun _ => .error "ECONNRESET")
      = .error "ECONNRESET" :=
  C9_transport_error_rejects_whole ⟨none, [.get "a"]⟩ "TypeError" "ECONNRESET"
    (fun _ => .error "ECONNRESET") rfl

/-- C10.  When the transport responds with an empty result list, an
`executeSingle()` resolves to the absent first element — JavaScript
`undefined`, the outer `none` of the model — rather than to a storage item
(`some (some item)`) or to `null` (`some none`), despite the declared
`EnvoyStorageItem | null` return type. -/
theorem C10_executeSingle_empty_undefined {E V : Type}
    (p : EnvoyPluginStoragePipeline V) (te : E)
    (transport : StorageRequest V → Except E (List (Option (EnvoyStorageItem V))))
    (h : transport (buildRequest p.commands p.installId) = .ok []) :
    p.executeSingle te transport = .ok none := by
  simp [EnvoyPluginStoragePipeline.executeSingle, EnvoyPluginStoragePipeline.execute,
    storagePipelineRun, h]

/-- C10, witness at a concrete input: an empty pipeline whose transport
responds with the empty result list resolves `executeSingle` to the outer
`none` (undefined). -/
theorem C10_witness :
    EnvoyPluginStoragePipeline.executeSingle
        (⟨none, []⟩ : EnvoyPluginStoragePipeline Nat) ()
        (fun _ => .ok [])
      = .ok none :=
  C10_executeSingle_empty_undefined ⟨none, []⟩ () (fun _ => .ok []) rfl

end EnvoySDK
